import Mathlib

/-!
Shallow embedding of the trinity repository (bond-fund simulator,
historical return aggregation and withdrawal simulation) over ℚ.
Python floats are idealised as rationals; operations that can raise an
exception in Python (StopIteration on an empty iterator, KeyError on a
missing dict key, ZeroDivisionError) are embedded as Option, with none
for the raising runs.
-/

namespace Trinity

/-- A bond of the ladder: (par_value, coupon_rate), matching the
(par, rate) tuples stored in the deque in bonds.py. -/
abbrev Bond := ℚ × ℚ

/-- bonds.pv: present value of an asset. -/
def pv (rate : ℚ) (nper : ℕ) (pmt fv : ℚ) : ℚ :=
  if rate = 0 then -(fv + pmt * nper)
  else
    let tmp := (1 + rate) ^ nper;
    -(fv + pmt * (tmp - 1) / rate) / tmp

/-- bonds.calc_rate: linear interpolation between the 1-year and
10-year rates. -/
def calc_rate (rate rate_long : ℚ) (maturity : ℕ) : ℚ :=
  rate + (rate_long - rate) * ((maturity : ℚ) - 1) / 9

/-- bonds.init_ladder: ten bonds appended for n = 0..9 with
par = (1 + rate)^n and coupon rate the initial 10-year rate. -/
def init_ladder (rate : ℚ) : List Bond :=
  (List.range 10).map fun n => ((1 + rate) ^ n, rate)

/-- bonds.step: coupon income is summed over the whole ladder (the
Python loop binds the tuple components in the order they are stored,
so the product is par * coupon_rate), the front bond is popped and its
par added, and one new bond (capital, rate_long) is appended.  The
Python popleft raises IndexError on an empty deque; every caller keeps
the ladder at ten bonds, so the empty case is unreachable and mapped
to the empty ladder. -/
def step (ladder : List Bond) (rate_long : ℚ) : List Bond :=
  let capital := (ladder.map fun b => b.1 * b.2).sum
  match ladder with
  | [] => []
  | front :: rest => rest ++ [(capital + front.1, rate_long)]

/-- bonds.calc_nav: nav starts at 0 and each bond, enumerated from 1,
contributes -pv(interpolated rate, i, par * coupon, par). -/
def calc_nav (ladder : List Bond) (rate rate_long : ℚ) : ℚ :=
  (ladder.enum.map fun p =>
    -(pv (calc_rate rate rate_long (p.1 + 1)) (p.1 + 1) (p.2.1 * p.2.2) p.2.1)).sum

/-- Round a rational to the nearest integer, ties to even, the rule
used by Python round. -/
def round_half_to_even (x : ℚ) : ℤ :=
  if x - ⌊x⌋ < 1 / 2 then ⌊x⌋
  else if 1 / 2 < x - ⌊x⌋ then ⌊x⌋ + 1
  else if ⌊x⌋ % 2 = 0 then ⌊x⌋ else ⌊x⌋ + 1

/-- Python round(x, ndigits) idealised over ℚ. -/
def py_round (x : ℚ) (ndigits : ℕ) : ℚ :=
  (round_half_to_even (x * 10 ^ ndigits) : ℚ) / 10 ^ ndigits

/-- The for-loop of bonds.simulate_returns: step the ladder, recompute
the NAV, emit round(nav_t / nav_prev - 1, 4). -/
def simulate_returns_go (ladder : List Bond) (nav : ℚ) :
    List (ℚ × ℚ) → List ℚ
  | [] => []
  | (rate, rate_long) :: rest =>
    let ladder2 := step ladder rate_long
    let tmp := calc_nav ladder2 rate rate_long
    py_round (tmp / nav - 1) 4 :: simulate_returns_go ladder2 tmp rest

/-- bonds.simulate_returns: next(rates) raises StopIteration on an
empty input (none); otherwise the ladder is bootstrapped from the
first long rate, nav is computed from the first pair, and the loop
runs over the remaining pairs. -/
def simulate_returns : List (ℚ × ℚ) → Option (List ℚ)
  | [] => none
  | (rate, rate_long) :: rest =>
    let ladder := init_ladder rate_long
    some (simulate_returns_go ladder (calc_nav ladder rate rate_long) rest)

/-- One row of the parsed Shiller data set (returns.read_shiller). -/
structure MarketRecord where
  year : ℤ
  price : ℚ
  dividends : ℚ
  rate : ℚ
  rate_long : ℚ
  cpi : ℚ

/-- returns.real_return. -/
def real_return (nominal_return inflation_rate : ℚ) : ℚ :=
  (1 + nominal_return) / (1 + inflation_rate) - 1

/-- returns.annual_returns: the pair (stocks, bonds) of real returns
for one year. -/
def annual_returns (current future : MarketRecord) (bond_return : ℚ) : ℚ × ℚ :=
  let inflation := future.cpi / current.cpi - 1
  (real_return
      ((future.price + current.dividends - current.price) / current.price)
      inflation,
   real_return bond_return inflation)

/-- returns.get_bond_returns: dict(zip(years, simulate_returns(rates)))
as an association list; zip truncates at the shorter argument.  On the
empty data set the Python tuple unpacking raises (and simulate_returns
would raise as well), embedded as none via simulate_returns. -/
def get_bond_returns (shiller : List MarketRecord) : Option (List (ℤ × ℚ)) :=
  (simulate_returns (shiller.map fun r => (r.rate, r.rate_long))).map
    fun bond_returns => (shiller.map MarketRecord.year).zip bond_returns

/-- returns.get_returns, parameterised by the parsed data set (the
Python function reads it from a packaged CSV): pair consecutive
records, look the current year up in the bond-return dict (KeyError
embedded as none) and build the per-year record. -/
def get_returns (shiller : List MarketRecord) : Option (List (ℤ × (ℚ × ℚ))) :=
  (get_bond_returns shiller).bind fun bond_returns =>
    (shiller.dropLast.zip shiller.tail).mapM fun p =>
      (bond_returns.lookup p.1.year).map fun br =>
        (p.1.year, annual_returns p.1 p.2 br)

/-- The while-loop of simulation.get_periods.  The loop increments
year by one each iteration and stops as soon as
year + duration - 1 > end_year, so it runs exactly
(end_year - start_year - duration + 2).toNat times; that count is
supplied as structural fuel and the guard is still re-checked each
iteration exactly as in the source. -/
def get_periods_go (year end_year duration : ℤ) : ℕ → List (ℤ × ℤ)
  | 0 => []
  | fuel + 1 =>
    if year + duration - 1 ≤ end_year then
      (year, year + duration - 1) :: get_periods_go (year + 1) end_year duration fuel
    else []

/-- simulation.get_periods. -/
def get_periods (start_year end_year duration : ℤ) : List (ℤ × ℤ) :=
  get_periods_go start_year end_year duration
    (end_year - start_year - duration + 2).toNat

/-- simulation.update_portfolio. -/
def update_portfolio (returns : ℚ × ℚ) (withdrawal stock_allocation balance : ℚ) : ℚ :=
  balance * stock_allocation * (1 + returns.1)
    + balance * (1 - stock_allocation) * (1 + returns.2)
    - withdrawal

/-- Python range(start_year, end_year + 1) as a list of integers. -/
def yearRange (start_year end_year : ℤ) : List ℤ :=
  (List.range (end_year + 1 - start_year).toNat).map fun i : ℕ => start_year + (i : ℤ)

/-- simulation.simulate: fold the yearly portfolio update over the
period; returns[year] is a dict lookup whose KeyError is embedded as
none; the survived flag is balance > 0. -/
def simulate (returns : List (ℤ × (ℚ × ℚ))) (start_year end_year : ℤ)
    (stock_allocation withdrawal_rate : ℚ) : Option Bool :=
  let balance : ℚ := 1000000
  let withdrawal := balance * withdrawal_rate
  ((yearRange start_year end_year).foldlM
      (fun bal year =>
        (returns.lookup year).map fun r =>
          update_portfolio r withdrawal stock_allocation bal)
      balance).map fun bal => decide (0 < bal)

/-- simulation.calc_success_rate: periods come from the hard-coded
window get_periods(1926, 1995, duration); summing the simulate results
counts the surviving periods; dividing by len(periods) raises
ZeroDivisionError when there are no periods (none). -/
def calc_success_rate (returns : List (ℤ × (ℚ × ℚ))) (stock_allocation : ℚ)
    (duration : ℤ) (withdrawal_rate : ℚ) : Option ℚ :=
  let periods := get_periods 1926 1995 duration
  if periods.length = 0 then none
  else
    (periods.mapM fun p =>
        simulate returns p.1 p.2 stock_allocation withdrawal_rate).map
      fun results => py_round ((results.countP id : ℚ) / (periods.length : ℚ)) 2

/-- A concrete market record used by witnesses. -/
def rec1900 : MarketRecord := ⟨1900, 10, 1 / 2, 1 / 25, 1 / 20, 8⟩

/-- A second concrete market record (the following year). -/
def rec1901 : MarketRecord := ⟨1901, 11, 1 / 2, 1 / 25, 1 / 20, 9⟩

/-- A returns mapping covering exactly the years 2000..2019. -/
def sample_returns_2000 : List (ℤ × (ℚ × ℚ)) :=
  (List.range 20).map fun k => ((2000 + k : ℤ), (1 / 10, 1 / 10))

/-- A returns mapping covering exactly the study years 1926..1995. -/
def sample_returns_full : List (ℤ × (ℚ × ℚ)) :=
  (List.range 70).map fun k => ((1926 + k : ℤ), (1 / 10, 1 / 10))

lemma sum_map_mul_comm (l : List Bond) :
    (l.map fun b => b.1 * b.2).sum = (l.map fun b => b.2 * b.1).sum := by
  induction l with
  | nil => rfl
  | cons b l ih => simp [ih, mul_comm]

lemma simulate_returns_go_length (rest : List (ℚ × ℚ)) :
    ∀ ladder nav, (simulate_returns_go ladder nav rest).length = rest.length := by
  induction rest with
  | nil => intro ladder nav; rfl
  | cons p rest ih =>
    intro ladder nav
    obtain ⟨rate, rate_long⟩ := p
    simp [simulate_returns_go, ih]

lemma step_length (ladder : List Bond) (h : ladder ≠ []) (rate_long : ℚ) :
    (step ladder rate_long).length = ladder.length := by
  match ladder with
  | front :: rest => simp [step]

lemma foldl_step_length (rates : List ℚ) :
    ∀ ladder : List Bond, ladder.length = 10 →
      (rates.foldl step ladder).length = 10 := by
  induction rates with
  | nil => intro ladder h; exact h
  | cons r rs ih =>
    intro ladder h
    rw [List.foldl_cons]
    refine ih _ ?_
    rw [step_length ladder (by intro he; rw [he] at h; simp at h) r]
    exact h

/-- Claim C9: pv(rate, periods, payment, future_value) equals
-(future_value + payment * periods) when rate = 0, and
-(future_value + payment * (g - 1) / rate) / g with g = (1 + rate)^periods
when rate is nonzero. -/
theorem claim_C9_pv (rate : ℚ) (nper : ℕ) (pmt fv : ℚ) :
    (rate = 0 → pv rate nper pmt fv = -(fv + pmt * nper)) ∧
    (rate ≠ 0 → pv rate nper pmt fv =
      -(fv + pmt * ((1 + rate) ^ nper - 1) / rate) / (1 + rate) ^ nper) := by
  constructor <;> intro h <;> simp [pv, h]

/-- Witness for claim C9 at concrete inputs, one for each branch. -/
theorem claim_C9_pv_witness :
    pv 0 7 3 5 = -(5 + 3 * ((7 : ℕ) : ℚ)) ∧
    pv 1 2 3 5 = -(5 + 3 * ((1 + 1) ^ 2 - 1) / 1) / (1 + 1) ^ 2 :=
  ⟨(claim_C9_pv 0 7 3 5).1 rfl, (claim_C9_pv 1 2 3 5).2 (by norm_num)⟩

/-- Claim C7: the ladder holds exactly ten bonds after initialization
and after any number of step calls. -/
theorem claim_C7_ladder_invariant (r0 : ℚ) (rates : List ℚ) :
    (init_ladder r0).length = 10 ∧
    (rates.foldl step (init_ladder r0)).length = 10 := by
  have h10 : (init_ladder r0).length = 10 := by simp [init_ladder]
  exact ⟨h10, foldl_step_length rates _ h10⟩

/-- Claim C2: on a ten-bond ladder, step removes the front bond and
appends one bond whose coupon rate is the current long rate and whose
par value is the total coupon income of all ten pre-step bonds plus
the matured par of the removed front bond; the remaining nine bonds
are unchanged and each moves one position toward the front. -/
theorem claim_C2_step (ladder : List Bond) (h : ladder.length = 10) (rate_long : ℚ) :
    ∃ front rest, ladder = front :: rest ∧ rest.length = 9 ∧
      step ladder rate_long =
        rest ++ [((ladder.map fun b => b.2 * b.1).sum + front.1, rate_long)] ∧
      (∀ k : ℕ, k < 9 → (step ladder rate_long)[k]? = ladder[k + 1]?) := by
  match ladder, h with
  | front :: rest, h =>
    have h9 : rest.length = 9 := by simpa using h
    refine ⟨front, rest, rfl, h9, ?_, ?_⟩
    · simp [step, sum_map_mul_comm, mul_comm]
    · intro k hk
      rw [List.getElem?_cons_succ]
      show (rest ++ [_])[k]? = rest[k]?
      rw [List.getElem?_append, if_pos (by omega)]

/-- Witness for claim C2 on a concrete ten-bond ladder. -/
theorem claim_C2_step_witness :
    ∃ front rest, init_ladder (1 / 20) = front :: rest ∧ rest.length = 9 ∧
      step (init_ladder (1 / 20)) (1 / 10) =
        rest ++ [(((init_ladder (1 / 20)).map fun b => b.2 * b.1).sum + front.1,
          1 / 10)] ∧
      (∀ k : ℕ, k < 9 →
        (step (init_ladder (1 / 20)) (1 / 10))[k]? = (init_ladder (1 / 20))[k + 1]?) :=
  claim_C2_step (init_ladder (1 / 20)) (by decide) (1 / 10)

/-- Claim C6: when the duration exceeds the available span,
get_periods yields the empty list without error, and
calc_success_rate, whose window is 1926..1995, yields none (the
embedded ZeroDivisionError) whenever the duration exceeds that
window span. -/
theorem claim_C6_zero_periods (s e d : ℤ) (hd : e - s + 1 < d)
    (returns : List (ℤ × (ℚ × ℚ))) (sa wr : ℚ) :
    get_periods s e d = [] ∧
    (1995 - (1926 : ℤ) + 1 < d → calc_success_rate returns sa d wr = none) := by
  have key : ∀ s2 e2 : ℤ, e2 - s2 + 1 < d → get_periods s2 e2 d = [] := by
    intro s2 e2 h
    unfold get_periods
    have h0 : (e2 - s2 - d + 2).toNat = 0 := by omega
    rw [h0]
    rfl
  refine ⟨key s e hd, fun h2 => ?_⟩
  simp [calc_success_rate, key 1926 1995 (by omega)]

/-- Witness for claim C6: duration 71 exceeds both spans. -/
theorem claim_C6_zero_periods_witness :
    get_periods 1926 1995 71 = [] ∧ calc_success_rate [] 0 71 0 = none :=
  ⟨(claim_C6_zero_periods 1926 1995 71 (by norm_num) [] 0 0).1,
   (claim_C6_zero_periods 1926 1995 71 (by norm_num) [] 0 0).2 (by norm_num)⟩

lemma get_periods_go_getElem? (fuel : ℕ) :
    ∀ (year e d : ℤ), (e - year - d + 2).toNat = fuel →
      ∀ k : ℕ, (get_periods_go year e d fuel)[k]? =
        if (k : ℤ) ≤ e - year - d + 1 then some (year + k, year + k + d - 1)
        else none := by
  induction fuel with
  | zero =>
    intro year e d hf k
    rw [if_neg (by omega)]
    rfl
  | succ n ih =>
    intro year e d hf k
    have hg : year + d - 1 ≤ e := by omega
    rw [get_periods_go, if_pos hg]
    cases k with
    | zero =>
      rw [List.getElem?_cons_zero, if_pos (by omega)]
      simp only [Option.some.injEq, Prod.mk.injEq]
      omega
    | succ m =>
      rw [List.getElem?_cons_succ, ih (year + 1) e d (by omega) m]
      by_cases hc : (m : ℤ) ≤ e - (year + 1) - d + 1
      · rw [if_pos hc, if_pos (by omega)]
        simp only [Option.some.injEq, Prod.mk.injEq]
        omega
      · rw [if_neg hc, if_neg (by omega)]

lemma get_periods_go_length (fuel : ℕ) :
    ∀ (year e d : ℤ), (e - year - d + 2).toNat = fuel →
      (get_periods_go year e d fuel).length = fuel := by
  induction fuel with
  | zero => intro year e d hf; rfl
  | succ n ih =>
    intro year e d hf
    rw [get_periods_go, if_pos (by omega), List.length_cons,
      ih (year + 1) e d (by omega)]

lemma get_periods_getElem? (s e d : ℤ) (k : ℕ) :
    (get_periods s e d)[k]? =
      if (k : ℤ) ≤ e - s - d + 1 then some (s + k, s + k + d - 1) else none :=
  get_periods_go_getElem? _ s e d rfl k

lemma get_periods_length (s e d : ℤ) :
    (get_periods s e d).length = (e - s - d + 2).toNat :=
  get_periods_go_length _ s e d rfl

lemma mem_get_periods (s e d : ℤ) (p : ℤ × ℤ) (hp : p ∈ get_periods s e d) :
    s ≤ p.1 ∧ p.2 ≤ e ∧ p.2 = p.1 + d - 1 := by
  obtain ⟨k, hk⟩ := List.mem_iff_getElem?.mp hp
  rw [get_periods_getElem? s e d k] at hk
  by_cases hc : (k : ℤ) ≤ e - s - d + 1
  · rw [if_pos hc] at hk
    have := Option.some.inj hk
    subst this
    refine ⟨by omega, by omega, by omega⟩
  · rw [if_neg hc] at hk
    exact absurd hk (by simp)

/-- Claim C8: get_periods(s, e, d) is exactly the ascending list of
pairs (s + i, s + i + d - 1) while the end stays at or below e; in
particular the 1926..1995 window yields 51 twenty-year periods from
(1926, 1945) to (1976, 1995) and 41 thirty-year periods. -/
theorem claim_C8_get_periods (s e d : ℤ) (hd : 0 < d) :
    (∀ k : ℕ, (get_periods s e d)[k]? =
      if (k : ℤ) ≤ e - s - d + 1 then some (s + k, s + k + d - 1) else none) ∧
    (get_periods 1926 1995 20).length = 51 ∧
    (get_periods 1926 1995 20).head? = some (1926, 1945) ∧
    (get_periods 1926 1995 20).getLast? = some (1976, 1995) ∧
    (∀ p ∈ get_periods 1926 1995 20, p.2 - p.1 + 1 = 20) ∧
    (get_periods 1926 1995 30).length = 41 :=
  ⟨fun k => get_periods_getElem? s e d k,
   by decide, by decide, by decide, by decide, by decide⟩

/-- Witness for claim C8 at the study window with duration 20. -/
theorem claim_C8_get_periods_witness :
    (∀ k : ℕ, (get_periods 1926 1995 20)[k]? =
      if (k : ℤ) ≤ 1995 - 1926 - 20 + 1
      then some ((1926 : ℤ) + k, (1926 : ℤ) + k + 20 - 1) else none) ∧
    (get_periods 1926 1995 20).length = 51 ∧
    (get_periods 1926 1995 20).head? = some (1926, 1945) ∧
    (get_periods 1926 1995 20).getLast? = some (1976, 1995) ∧
    (∀ p ∈ get_periods 1926 1995 20, p.2 - p.1 + 1 = 20) ∧
    (get_periods 1926 1995 30).length = 41 :=
  claim_C8_get_periods 1926 1995 20 (by norm_num)

/-- Claim C1: on a nonempty rate series, simulate_returns succeeds and
yields input length minus one returns; the ladder is bootstrapped from
the first long rate with par (1 + long)^n at position n, the first NAV
comes from the first pair, and each later pair contributes
round(nav_t / nav_prev - 1, 4) after stepping the ladder. -/
theorem claim_C1_simulate_returns (first : ℚ × ℚ) (rest : List (ℚ × ℚ)) :
    ∃ out, simulate_returns (first :: rest) = some out ∧
      out.length = (first :: rest).length - 1 ∧
      (∀ n : ℕ, (init_ladder first.2)[n]? =
        if n < 10 then some ((1 + first.2) ^ n, first.2) else none) ∧
      out = simulate_returns_go (init_ladder first.2)
        (calc_nav (init_ladder first.2) first.1 first.2) rest ∧
      (∀ (ladder : List Bond) (nav rate rate_long : ℚ) (rs : List (ℚ × ℚ)),
        simulate_returns_go ladder nav ((rate, rate_long) :: rs) =
          py_round (calc_nav (step ladder rate_long) rate rate_long / nav - 1) 4 ::
            simulate_returns_go (step ladder rate_long)
              (calc_nav (step ladder rate_long) rate rate_long) rs) := by
  obtain ⟨r, rl⟩ := first
  refine ⟨_, rfl, ?_, ?_, rfl, fun ladder nav rate rate_long rs => rfl⟩
  · simp [simulate_returns_go_length]
  · intro n
    rw [init_ladder, List.getElem?_map]
    by_cases h : n < 10
    · rw [List.getElem?_range h, if_pos h]
      rfl
    · rw [if_neg h, List.getElem?_eq_none (by simpa using Nat.le_of_not_lt h)]
      rfl

lemma mapM_option_getElem? {α β : Type} (f : α → Option β) (l : List α)
    (h : ∀ a ∈ l, (f a).isSome) :
    ∃ out, l.mapM f = some out ∧ out.length = l.length ∧
      ∀ k : ℕ, out[k]? = (l[k]?).bind f := by
  induction l with
  | nil => exact ⟨[], rfl, rfl, fun k => by simp⟩
  | cons a l ih =>
    obtain ⟨b, hb⟩ := Option.isSome_iff_exists.mp (h a (by simp))
    obtain ⟨out, hout, hlen, hget⟩ := ih fun x hx => h x (by simp [hx])
    refine ⟨b :: out, ?_, by simp [hlen], ?_⟩
    · rw [List.mapM_cons, hb, hout]
      rfl
    · intro k
      cases k with
      | zero => simp [hb]
      | succ m => simpa using hget m

lemma mapM_option_countP {α : Type} (f : α → Option Bool) (l : List α) :
    ∀ out, l.mapM f = some out →
      out.countP id = l.countP fun a => decide (f a = some true) := by
  induction l with
  | nil =>
    intro out h
    rw [List.mapM_nil] at h
    cases h
    rfl
  | cons a l ih =>
    intro out h
    rw [List.mapM_cons] at h
    cases hfa : f a with
    | none => rw [hfa] at h; simp at h
    | some b =>
      rw [hfa] at h
      cases hml : l.mapM f with
      | none => rw [hml] at h; simp at h
      | some out2 =>
        rw [hml] at h
        have h2 : b :: out2 = out := by
          simpa using h
        subst h2
        rw [List.countP_cons, List.countP_cons, ih out2 hml]
        cases b <;> simp [hfa]

lemma foldlM_option_isSome {β ι : Type} (g : β → ι → Option β) (ys : List ι)
    (h : ∀ y ∈ ys, ∀ b, (g b y).isSome) :
    ∀ b0, (ys.foldlM g b0).isSome := by
  induction ys with
  | nil => intro b0; rfl
  | cons y ys ih =>
    intro b0
    rw [List.foldlM_cons]
    obtain ⟨b1, hb1⟩ := Option.isSome_iff_exists.mp (h y (by simp) b0)
    rw [hb1]
    simpa using ih (fun z hz b => h z (by simp [hz]) b) b1

lemma lookup_zip {β : Type} :
    ∀ (ys : List ℤ) (bs : List β) (k : ℕ) (y : ℤ) (b : β), ys.Nodup →
      ys[k]? = some y → bs[k]? = some b → (ys.zip bs).lookup y = some b := by
  intro ys
  induction ys with
  | nil => intro bs k y b _ hy _; simp at hy
  | cons y0 ys ih =>
    intro bs k y b hnd hy hb
    cases bs with
    | nil => simp at hb
    | cons b0 bs =>
      cases k with
      | zero =>
        rw [List.getElem?_cons_zero] at hy hb
        cases hy
        cases hb
        simp [List.zip_cons_cons]
      | succ m =>
        rw [List.getElem?_cons_succ] at hy hb
        have hne : y ≠ y0 := by
          have hmem : y ∈ ys := List.mem_iff_getElem?.mpr ⟨m, hy⟩
          intro he
          subst he
          exact (List.nodup_cons.mp hnd).1 hmem
        have hbeq : (y == y0) = false := by simpa using hne
        rw [List.zip_cons_cons, List.lookup_cons, hbeq]
        exact ih bs m y b (List.nodup_cons.mp hnd).2 hy hb

lemma pairs_getElem? {α : Type} (l : List α) (k : ℕ) :
    (l.dropLast.zip l.tail)[k]? =
      (l[k]?).bind fun a => (l[k + 1]?).map fun b => (a, b) := by
  rw [List.zip, List.getElem?_zipWith', List.getElem?_dropLast,
    List.getElem?_tail]
  by_cases h : k < l.length - 1
  · rw [if_pos h]
    cases hk : l[k]? <;> simp
  · rw [if_neg h]
    have h1 : l[k + 1]? = none := List.getElem?_eq_none (by omega)
    cases hk : l[k]? <;> simp [h1]

/-- Counterexample to claim C5: on a single-record dataset
get_returns does not fail; it returns the empty mapping. -/
theorem claim_C5_counterexample : get_returns [rec1900] = some [] := rfl

/-- Claim C5 as amended: get_returns fails only on the empty dataset;
a single-record dataset yields the empty mapping without error. -/
theorem claim_C5_amended :
    get_returns ([] : List MarketRecord) = none ∧
    ∀ r : MarketRecord, get_returns [r] = some [] :=
  ⟨rfl, fun r => rfl⟩

lemma getElem?_isSome_of_lt {α : Type} (l : List α) (k : ℕ) (h : k < l.length) :
    (l[k]?).isSome := by
  rw [List.getElem?_eq_getElem h]
  rfl

lemma lt_of_getElem?_eq_some {α : Type} {l : List α} {k : ℕ} {a : α}
    (h : l[k]? = some a) : k < l.length := by
  rcases List.getElem?_eq_some.mp h with ⟨h1, _⟩
  exact h1

lemma nodup_of_consecutive (shiller : List MarketRecord) (y0 : ℤ)
    (hyears : shiller.map MarketRecord.year =
      (List.range shiller.length).map fun k : ℕ => y0 + (k : ℤ)) :
    (shiller.map MarketRecord.year).Nodup := by
  rw [hyears]
  refine List.Nodup.map ?_ (List.nodup_range _)
  intro a b hab
  simpa using hab

/-- Claim C3: on a dataset of at least two records with consecutive
ascending years, get_returns succeeds, its keys are exactly the years
of all but the last record, and the entry of the k-th year combines
the real-adjusted stock return (price[y+1] + dividends[y] - price[y])
/ price[y] and the real-adjusted k-th simulated nominal bond return,
both deflated with inflation CPI[y+1] / CPI[y] - 1. -/
theorem claim_C3_get_returns (shiller : List MarketRecord) (y0 : ℤ)
    (h2 : 2 ≤ shiller.length)
    (hyears : shiller.map MarketRecord.year =
      (List.range shiller.length).map fun k : ℕ => y0 + (k : ℤ)) :
    ∃ brs out,
      simulate_returns (shiller.map fun r => (r.rate, r.rate_long)) = some brs ∧
      get_returns shiller = some out ∧
      out.map Prod.fst = shiller.dropLast.map MarketRecord.year ∧
      out.length = shiller.length - 1 ∧
      (∀ (k : ℕ) (cur fut : MarketRecord) (b : ℚ),
        shiller[k]? = some cur → shiller[k + 1]? = some fut → brs[k]? = some b →
          out[k]? = some (cur.year,
            ((1 + (fut.price + cur.dividends - cur.price) / cur.price) /
                (1 + (fut.cpi / cur.cpi - 1)) - 1,
             (1 + b) / (1 + (fut.cpi / cur.cpi - 1)) - 1))) := by
  have hnd := nodup_of_consecutive shiller y0 hyears
  obtain ⟨x, rest, rfl⟩ : ∃ x rest, shiller = x :: rest := by
    cases shiller with
    | nil => simp at h2
    | cons a l => exact ⟨a, l, rfl⟩
  obtain ⟨brs, hbrs, hbrslen⟩ :
      ∃ brs, simulate_returns ((x :: rest).map fun r => (r.rate, r.rate_long))
          = some brs ∧ brs.length = rest.length :=
    ⟨_, rfl, by rw [simulate_returns_go_length]; simp⟩
  refine ⟨brs, ?_⟩
  have hbmap : get_bond_returns (x :: rest)
      = some (((x :: rest).map MarketRecord.year).zip brs) := by
    rw [get_bond_returns, hbrs]
    rfl
  have hcov : ∀ (k : ℕ) (a : MarketRecord), k < rest.length →
      (x :: rest)[k]? = some a →
      ∃ br, (((x :: rest).map MarketRecord.year).zip brs).lookup a.year
          = some br ∧ brs[k]? = some br := by
    intro k a hk ha
    have hyk : ((x :: rest).map MarketRecord.year)[k]? = some a.year := by
      rw [List.getElem?_map, ha]
      rfl
    obtain ⟨br, hbr⟩ := Option.isSome_iff_exists.mp
      (getElem?_isSome_of_lt brs k (by omega))
    exact ⟨br, lookup_zip _ brs k a.year br hnd hyk hbr, hbr⟩
  have hsome : ∀ p ∈ (x :: rest).dropLast.zip (x :: rest).tail,
      (((((x :: rest).map MarketRecord.year).zip brs).lookup p.1.year).map
        fun br => (p.1.year, annual_returns p.1 p.2 br)).isSome := by
    intro p hp
    obtain ⟨k, hk⟩ := List.mem_iff_getElem?.mp hp
    rw [pairs_getElem?] at hk
    cases hk1 : (x :: rest)[k]? with
    | none => rw [hk1] at hk; simp at hk
    | some a =>
      rw [hk1] at hk
      cases hk2 : (x :: rest)[k + 1]? with
      | none => rw [hk2] at hk; simp at hk
      | some a2 =>
        rw [hk2] at hk
        simp only [Option.some_bind, Option.map_some', Option.some.injEq] at hk
        have hklt : k < rest.length := by
          have h3 := lt_of_getElem?_eq_some hk2
          simp at h3
          omega
        obtain ⟨br, hbr, _⟩ := hcov k a hklt hk1
        rw [← hk, hbr]
        rfl
  obtain ⟨out, hout, hlen, hget⟩ := mapM_option_getElem? _ _ hsome
  have hret : get_returns (x :: rest) = some out := by
    rw [get_returns, hbmap]
    exact hout
  have hplen : ((x :: rest).dropLast.zip (x :: rest).tail).length
      = rest.length := by
    simp [List.length_zip]
  refine ⟨out, hbrs, hret, ?_, by rw [hlen, hplen]; simp, ?_⟩
  · refine List.ext_getElem? fun k => ?_
    rw [List.getElem?_map, List.getElem?_map, hget k, pairs_getElem?,
      List.getElem?_dropLast]
    by_cases hk : k < (x :: rest).length - 1
    · rw [if_pos hk]
      have hklt : k < rest.length := by simpa using hk
      obtain ⟨a, ha⟩ := Option.isSome_iff_exists.mp
        (getElem?_isSome_of_lt (x :: rest) k (by simp; omega))
      obtain ⟨a2, ha2⟩ := Option.isSome_iff_exists.mp
        (getElem?_isSome_of_lt (x :: rest) (k + 1) (by simp; omega))
      obtain ⟨br, hbr, _⟩ := hcov k a hklt ha
      rw [ha, ha2]
      simp [hbr]
      exact ⟨br, hbr⟩
    · rw [if_neg hk]
      have hklt : ¬ k < rest.length := by simpa using hk
      have h1 : (x :: rest)[k + 1]? = none :=
        List.getElem?_eq_none (by simp; omega)
      cases hk1 : (x :: rest)[k]? <;> simp [h1]
  · intro k cur fut b hcur hfut hb
    have hyk : ((x :: rest).map MarketRecord.year)[k]? = some cur.year := by
      rw [List.getElem?_map, hcur]
      rfl
    have hbr := lookup_zip _ brs k cur.year b hnd hyk hb
    rw [hget k, pairs_getElem?, hcur, hfut]
    simp [hbr, annual_returns, real_return]
    exact ⟨b, hbr, rfl⟩

/-- Witness for claim C3 on a concrete two-record dataset with
consecutive years 1900, 1901. -/
theorem claim_C3_get_returns_witness :
    ∃ brs out,
      simulate_returns ([rec1900, rec1901].map fun r => (r.rate, r.rate_long))
          = some brs ∧
      get_returns [rec1900, rec1901] = some out ∧
      out.map Prod.fst = [rec1900, rec1901].dropLast.map MarketRecord.year ∧
      out.length = [rec1900, rec1901].length - 1 ∧
      (∀ (k : ℕ) (cur fut : MarketRecord) (b : ℚ),
        [rec1900, rec1901][k]? = some cur →
        [rec1900, rec1901][k + 1]? = some fut → brs[k]? = some b →
          out[k]? = some (cur.year,
            ((1 + (fut.price + cur.dividends - cur.price) / cur.price) /
                (1 + (fut.cpi / cur.cpi - 1)) - 1,
             (1 + b) / (1 + (fut.cpi / cur.cpi - 1)) - 1))) :=
  claim_C3_get_returns [rec1900, rec1901] 1900 (by norm_num) (by decide)

/-- Claim C10: get_bond_returns pairs the years of the records, in
input order, with the simulated returns; the zip truncates to the
first length - 1 years, the k-th year is keyed to the k-th simulated
return, and the last year is not a key of the mapping. -/
theorem claim_C10_bond_alignment (shiller : List MarketRecord) (y0 : ℤ)
    (h2 : 2 ≤ shiller.length)
    (hyears : shiller.map MarketRecord.year =
      (List.range shiller.length).map fun k : ℕ => y0 + (k : ℤ)) :
    ∃ brs bmap,
      simulate_returns (shiller.map fun r => (r.rate, r.rate_long)) = some brs ∧
      get_bond_returns shiller = some bmap ∧
      brs.length = shiller.length - 1 ∧
      bmap = (shiller.map MarketRecord.year).zip brs ∧
      bmap.length = shiller.length - 1 ∧
      (∀ (k : ℕ) (cur : MarketRecord) (b : ℚ),
        shiller[k]? = some cur → brs[k]? = some b →
          bmap.lookup cur.year = some b ∧ bmap[k]? = some (cur.year, b)) ∧
      (∀ lastRec : MarketRecord, shiller.getLast? = some lastRec →
        lastRec.year ∉ bmap.map Prod.fst) := by
  have hnd := nodup_of_consecutive shiller y0 hyears
  obtain ⟨x, rest, rfl⟩ : ∃ x rest, shiller = x :: rest := by
    cases shiller with
    | nil => simp at h2
    | cons a l => exact ⟨a, l, rfl⟩
  obtain ⟨brs, hbrs, hbrslen⟩ :
      ∃ brs, simulate_returns ((x :: rest).map fun r => (r.rate, r.rate_long))
          = some brs ∧ brs.length = rest.length :=
    ⟨_, rfl, by rw [simulate_returns_go_length]; simp⟩
  have hbmap : get_bond_returns (x :: rest)
      = some (((x :: rest).map MarketRecord.year).zip brs) := by
    rw [get_bond_returns, hbrs]
    rfl
  refine ⟨brs, ((x :: rest).map MarketRecord.year).zip brs, hbrs, hbmap,
    by simpa using hbrslen, rfl, ?_, ?_, ?_⟩
  · rw [List.length_zip, hbrslen]
    simp
  · intro k cur b hcur hb
    have hyk : ((x :: rest).map MarketRecord.year)[k]? = some cur.year := by
      rw [List.getElem?_map, hcur]
      rfl
    exact ⟨lookup_zip _ brs k cur.year b hnd hyk hb,
      List.getElem?_zip_eq_some.mpr ⟨hyk, hb⟩⟩
  · intro lastRec hlast hmem
    rw [List.getLast?_eq_getElem?] at hlast
    have hyN : ((x :: rest).map MarketRecord.year)[(x :: rest).length - 1]?
        = some lastRec.year := by
      rw [List.getElem?_map, hlast]
      rfl
    obtain ⟨j, hj⟩ := List.mem_iff_getElem?.mp hmem
    rw [List.getElem?_map] at hj
    cases hz : (((x :: rest).map MarketRecord.year).zip brs)[j]? with
    | none => rw [hz] at hj; simp at hj
    | some pr =>
      rw [hz] at hj
      obtain ⟨hy, hb⟩ := List.getElem?_zip_eq_some.mp hz
      have hjlt : j < brs.length := lt_of_getElem?_eq_some hb
      have hpr1 : pr.1 = lastRec.year := by simpa using hj
      have hyj : ((x :: rest).map MarketRecord.year)[j]?
          = some lastRec.year := by rw [hy, hpr1]
      have hjeq : j = (x :: rest).length - 1 := by
        refine List.getElem?_inj ?_ hnd ?_
        · rw [List.length_map]
          simp
          omega
        · rw [hyj, hyN]
      simp at hjeq
      omega

/-- Witness for claim C10 on the concrete two-record dataset. -/
theorem claim_C10_bond_alignment_witness :
    ∃ brs bmap,
      simulate_returns ([rec1900, rec1901].map fun r => (r.rate, r.rate_long))
          = some brs ∧
      get_bond_returns [rec1900, rec1901] = some bmap ∧
      brs.length = [rec1900, rec1901].length - 1 ∧
      bmap = ([rec1900, rec1901].map MarketRecord.year).zip brs ∧
      bmap.length = [rec1900, rec1901].length - 1 ∧
      (∀ (k : ℕ) (cur : MarketRecord) (b : ℚ),
        [rec1900, rec1901][k]? = some cur → brs[k]? = some b →
          bmap.lookup cur.year = some b ∧ bmap[k]? = some (cur.year, b)) ∧
      (∀ lastRec : MarketRecord, [rec1900, rec1901].getLast? = some lastRec →
        lastRec.year ∉ bmap.map Prod.fst) :=
  claim_C10_bond_alignment [rec1900, rec1901] 1900 (by norm_num) (by decide)

lemma mem_yearRange (a b y : ℤ) : y ∈ yearRange a b ↔ a ≤ y ∧ y ≤ b := by
  unfold yearRange
  simp only [List.mem_map, List.mem_range]
  constructor
  · rintro ⟨i, hi, rfl⟩
    omega
  · rintro ⟨h1, h2⟩
    exact ⟨(y - a).toNat, by omega, by omega⟩

/-- Counterexample to claim C4: a returns mapping that covers the
twenty years 2000..2019 admits one twenty-year period inside its own
year range, yet calc_success_rate yields none (the simulation looks
1926 up in the mapping and the embedded KeyError aborts) instead of a
success fraction. -/
theorem claim_C4_counterexample :
    calc_success_rate sample_returns_2000 (1 / 2) 20 (1 / 25) = none := by
  decide

/-- Claim C4 as amended: the period set is the hard-coded study window
get_periods(1926, 1995, duration), independent of the supplied
mapping; whenever that window yields at least one period and the
mapping covers every year 1926..1995, calc_success_rate returns the
surviving-period count over the period count, rounded to 2 places. -/
theorem claim_C4_amended (returns : List (ℤ × (ℚ × ℚ))) (sa wr : ℚ) (d : ℤ)
    (hne : get_periods 1926 1995 d ≠ [])
    (hcov : ∀ y ∈ yearRange 1926 1995, (returns.lookup y).isSome) :
    calc_success_rate returns sa d wr =
      some (py_round
        (((get_periods 1926 1995 d).countP
            (fun p => decide (simulate returns p.1 p.2 sa wr = some true)) : ℚ) /
          ((get_periods 1926 1995 d).length : ℚ)) 2) := by
  have hsim : ∀ p ∈ get_periods 1926 1995 d,
      (simulate returns p.1 p.2 sa wr).isSome := by
    intro p hp
    obtain ⟨h1, h2, h3⟩ := mem_get_periods _ _ _ p hp
    unfold simulate
    simp only [Option.isSome_map']
    refine foldlM_option_isSome _ _ ?_ _
    intro y hy bal
    simp only [Option.isSome_map']
    refine hcov y ?_
    rw [mem_yearRange] at hy ⊢
    omega
  obtain ⟨out, hout, hlen, hget⟩ := mapM_option_getElem? _ _ hsim
  have hcount := mapM_option_countP _ _ out hout
  have hne2 : ¬ (get_periods 1926 1995 d).length = 0 := by
    simpa [List.length_eq_zero] using hne
  simp only [calc_success_rate]
  rw [if_neg hne2, hout]
  simp only [Option.map_some', Option.some.injEq]
  rw [hcount]

/-- Witness for the amended claim C4: a mapping covering 1926..1995
with a single 70-year period. -/
theorem claim_C4_amended_witness :
    calc_success_rate sample_returns_full (1 / 2) 70 (1 / 25) =
      some (py_round
        (((get_periods 1926 1995 70).countP
            (fun p => decide
              (simulate sample_returns_full p.1 p.2 (1 / 2) (1 / 25)
                = some true)) : ℚ) /
          ((get_periods 1926 1995 70).length : ℚ)) 2) :=
  claim_C4_amended sample_returns_full (1 / 2) (1 / 25) 70 (by decide) (by decide)

end Trinity